import Mathlib

/-!
Shallow embedding of `datacube/utils/geometry/_base.py` (grid algebra of
GeoBoxes) over exact rationals.  Python floats are modelled as `ℚ`,
Python ints as `ℤ`, raised exceptions as an explicit error type in
`Except`.  Helper functions that the module imports from elsewhere in the
repository (`is_almost_int` from `datacube.utils.math`, `roi_normalise` /
`roi_shape` from `datacube.utils.geometry.tools`) are not part of the
given source tree and are modelled from the spec, as marked on each.
-/

/-- Python's built-in `round`: round half to even (banker's rounding). -/
def pythonRound (x : ℚ) : ℤ :=
  if x - ⌊x⌋ < 1/2 then ⌊x⌋
  else if 1/2 < x - ⌊x⌋ then ⌊x⌋ + 1
  else if ⌊x⌋ % 2 = 0 then ⌊x⌋ else ⌊x⌋ + 1

/-- Python's `%` operator on floats (sign follows the divisor); used to state
the grid-alignment property `origin mod |res| == off mod |res|`. -/
def qmod (a r : ℚ) : ℚ := a - r * ⌊a / r⌋

/-- `numpy.isclose(x, y)` with the default tolerances
`rtol = 1e-5`, `atol = 1e-8`:  `|x - y| ≤ atol + rtol * |y|`. -/
def isclose (x y : ℚ) : Bool := |x - y| ≤ 1/100000000 + (1/100000) * |y|

/-- Modelled from the spec: `is_almost_int(x, tol)` from `datacube.utils.math`
(that module is not under `src/`); the spec reads "translation terms `c, f`
within `1e-8` of an integer", i.e. the distance from `x` to the nearest
integer is at most `tol`. -/
def is_almost_int (x tol : ℚ) : Bool := |x - (round x : ℚ)| ≤ tol

/-- The six coefficients of an `affine.Affine` transform
`(x, y) ↦ (a*x + b*y + c, d*x + e*y + f)`. -/
structure Affine where
  a : ℚ
  b : ℚ
  c : ℚ
  d : ℚ
  e : ℚ
  f : ℚ
deriving DecidableEq, Repr

/-- Composition `A * B` of affine transforms (3×3 matrix product of the
augmented matrices), as implemented by `affine.Affine.__mul__`. -/
def Affine.mul (A B : Affine) : Affine :=
  ⟨A.a * B.a + A.b * B.d, A.a * B.b + A.b * B.e, A.a * B.c + A.b * B.f + A.c,
   A.d * B.a + A.e * B.d, A.d * B.b + A.e * B.e, A.d * B.c + A.e * B.f + A.f⟩

/-- `Affine.translation(tx, ty)`. -/
def Affine.translation (tx ty : ℚ) : Affine := ⟨1, 0, tx, 0, 1, ty⟩

/-- `Affine.scale(sx, sy)`. -/
def Affine.scale (sx sy : ℚ) : Affine := ⟨sx, 0, 0, 0, sy, 0⟩

/-- Determinant of the linear part. -/
def Affine.det (A : Affine) : ℚ := A.a * A.e - A.b * A.d

/-- Inverse transform `~A` as computed by `affine.Affine.__invert__`;
meaningful only when `A.det ≠ 0` (the library raises otherwise, which the
embedding guards by an explicit determinant test at the call site). -/
def Affine.inv (A : Affine) : Affine :=
  ⟨A.e / A.det, -A.b / A.det, (A.b * A.f - A.e * A.c) / A.det,
   -A.d / A.det, A.a / A.det, (A.d * A.c - A.a * A.f) / A.det⟩

/-- Bounding box `(left, bottom, right, top)`.  The source's `BoundingBox`
is a 4-tuple of floats; every use reached by the claims is in the integer
pixel domain (`bounding_box_in_pixel_domain` produces integer corners and
union/intersection preserve integrality), so corners are embedded as `ℤ`. -/
structure BoundingBox where
  left : ℤ
  bottom : ℤ
  right : ℤ
  top : ℤ
deriving DecidableEq, Repr

/-- `BoundingBox.width = right - left`. -/
def BoundingBox.width (bb : BoundingBox) : ℤ := bb.right - bb.left

/-- `BoundingBox.height = top - bottom`. -/
def BoundingBox.height (bb : BoundingBox) : ℤ := bb.top - bb.bottom

/-- One accumulation step of `bbox_union`: coordinate-wise min of
left/bottom, max of right/top. -/
def bbox_union2 (x y : BoundingBox) : BoundingBox :=
  ⟨min x.left y.left, min x.bottom y.bottom, max x.right y.right, max x.top y.top⟩

/-- One accumulation step of `bbox_intersection`: coordinate-wise max of
left/bottom, min of right/top. -/
def bbox_intersection2 (x y : BoundingBox) : BoundingBox :=
  ⟨max x.left y.left, max x.bottom y.bottom, min x.right y.right, min x.top y.top⟩

/-- `bbox_union` over a nonempty stream, given as head and tail.  The source
initialises the fold from `(+inf, +inf, -inf, -inf)`; over a nonempty stream
that equals folding from the first element, and both call sites
(`geobox_union_conservative` / `geobox_intersection_conservative`) guard
against the empty stream before folding. -/
def bbox_union1 (b0 : BoundingBox) (bs : List BoundingBox) : BoundingBox :=
  bs.foldl bbox_union2 b0

/-- `bbox_intersection` over a nonempty stream, given as head and tail
(see `bbox_union1` for the treatment of the infinite initial values). -/
def bbox_intersection1 (b0 : BoundingBox) (bs : List BoundingBox) : BoundingBox :=
  bs.foldl bbox_intersection2 b0

/-- Errors raised by the module, by exception type and message:
`crsMismatch` = `ValueError("Cannot combine geoboxes in different CRSs")`
(the spec's `CRSMismatchError`); `incompatibleGrid` =
`ValueError("Incompatible grids")` (the spec's `IncompatibleGridError`);
`inputError` = `ValueError("No geoboxes supplied")` (the spec's
`InputError`); `undefinedInverse` = `affine.UndefinedInverseError` raised
by `~affine` on a singular transform; `notImplemented` =
`NotImplementedError("scaling not implemented, yet")`. -/
inductive GeoError where
  | crsMismatch
  | incompatibleGrid
  | inputError
  | undefinedInverse
  | notImplemented
deriving DecidableEq, Repr

/-- A `GeoBox`: pixel grid dimensions, affine pixel-to-world transform and
CRS.  The CRS is kept abstract (identified by a natural number, standing
for its canonical identity; CRS equality in the source is delegated to
pyproj).  The constructor assertion `is_affine_st(affine)` (axis-aligned
transform) constrains how GeoBoxes arise but is not needed by any claim. -/
structure GeoBox where
  width : ℤ
  height : ℤ
  affine : Affine
  crs : ℕ
deriving DecidableEq, Repr

/-- `GeoBox.is_empty`: `width == 0 or height == 0`. -/
def GeoBox.is_empty (g : GeoBox) : Bool := g.width == 0 || g.height == 0

/-- `GeoBox.__eq__`: same shape `(height, width)`, same affine transform,
same CRS. -/
def geoboxEq (x y : GeoBox) : Bool :=
  x.height == y.height && x.width == y.width && x.affine == y.affine && x.crs == y.crs

/-- `_align_pix(left, right, res, off)` from the source: pixel-aligned
origin and pixel count covering `[left, right]` at resolution `res` with
sub-pixel alignment `off`. -/
def align_pix (left right res off : ℚ) : ℚ × ℤ :=
  if res < 0 then
    let r := -res
    let val := (⌈(right - off) / r⌉ : ℚ) * r + off
    (val, max 1 ⌈(val - left - 0.1 * r) / r⌉)
  else
    let val := (⌊(left - off) / res⌋ : ℚ) * res + off
    (val, max 1 ⌈(right - val - 0.1 * res) / res⌉)

/-- `_dist(x, y) = x*x + y*y` (squared Euclidean norm). -/
def dist2 (x y : ℚ) : ℚ := x * x + y * y

/-- `_is_smooth_across_dateline(mid_lat, transform, rtransform, eps)` from
the source.  The pyproj point transforms are modelled as plain functions
`ℚ × ℚ → ℚ × ℚ` (the third coordinate returned by `TransformPoint` is
discarded by the source). -/
def is_smooth_across_dateline (mid_lat : ℚ) (transform rtransform : ℚ × ℚ → ℚ × ℚ)
    (eps : ℚ) : Bool :=
  let l := rtransform (180 - eps, mid_lat)
  let r := rtransform (-180 + eps, mid_lat)
  if dist2 (r.1 - l.1) (r.2 - l.2) > 1 then false
  else
    let lt := transform l
    let rt := transform r
    if dist2 (lt.1 - 180 + eps) (lt.2 - mid_lat) > 2 * eps ∨
       dist2 (rt.1 + 180 - eps) (rt.2 - mid_lat) > 2 * eps then false
    else true

/-- The dateline smoothness test as the spec's words describe it, for
refinement comparison with `is_smooth_across_dateline`: identical except
that the round-trip threshold on the squared distance is `2*eps²`
("within `2*eps²` of its expected longitude ... and `mid_lat`") where the
source uses `2*eps`. -/
def is_smooth_across_dateline_specWorded (mid_lat : ℚ)
    (transform rtransform : ℚ × ℚ → ℚ × ℚ) (eps : ℚ) : Bool :=
  let l := rtransform (180 - eps, mid_lat)
  let r := rtransform (-180 + eps, mid_lat)
  if dist2 (r.1 - l.1) (r.2 - l.2) > 1 then false
  else
    let lt := transform l
    let rt := transform r
    if dist2 (lt.1 - 180 + eps) (lt.2 - mid_lat) > 2 * eps * eps ∨
       dist2 (rt.1 + 180 - eps) (rt.2 - mid_lat) > 2 * eps * eps then false
    else true

/-- The compatibility condition tested inside `bounding_box_in_pixel_domain`
(with `tol = 1.e-8`), in the source's operand order: the relative transform
is a pure whole-pixel translation — scale terms `numpy.isclose` to 1, shear
terms `numpy.isclose` to 0, translation terms within `1e-8` of an integer. -/
def is_whole_pixel_translation (rel : Affine) : Bool :=
  isclose rel.a 1 && isclose rel.b 0 && is_almost_int rel.c (1/100000000)
    && isclose rel.d 0 && isclose rel.e 1 && is_almost_int rel.f (1/100000000)

/-- `bounding_box_in_pixel_domain(geobox, reference)` from the source:
CRS check, relative transform `rel = ~reference.affine * geobox.affine`,
whole-pixel-translation check with `tol = 1e-8`, then the integer
pixel-space bounding box.  The singular-affine case surfaces the
`UndefinedInverseError` that `~` raises in the library. -/
def bounding_box_in_pixel_domain (geobox reference : GeoBox) :
    Except GeoError BoundingBox :=
  if reference.crs ≠ geobox.crs then .error .crsMismatch
  else if reference.affine.det = 0 then .error .undefinedInverse
  else
    let rel := reference.affine.inv.mul geobox.affine
    if is_whole_pixel_translation rel then
      let tx := pythonRound rel.c
      let ty := pythonRound rel.f
      .ok ⟨tx, ty, tx + geobox.width, ty + geobox.height⟩
    else .error .incompatibleGrid

/-- The generator `bounding_box_in_pixel_domain(geobox, reference) for
geobox in geoboxes`: in-order, short-circuiting on the first error, as the
Python generator consumed by `bbox_union` / `bbox_intersection` does. -/
def pixel_bboxes (reference : GeoBox) : List GeoBox → Except GeoError (List BoundingBox)
  | [] => .ok []
  | g :: gs => do
    let bb ← bounding_box_in_pixel_domain g reference
    let rest ← pixel_bboxes reference gs
    .ok (bb :: rest)

/-- `geobox_union_conservative(geoboxes)` from the source.  The first
geobox is the reference; the first element of the folded stream is the
reference's own pixel bounding box. -/
def geobox_union_conservative (geoboxes : List GeoBox) : Except GeoError GeoBox :=
  match geoboxes with
  | [] => .error .inputError
  | reference :: rest => do
    let bb0 ← bounding_box_in_pixel_domain reference reference
    let bbs ← pixel_bboxes reference rest
    let bbox := bbox_union1 bb0 bbs
    .ok ⟨bbox.width, bbox.height,
         reference.affine.mul (Affine.translation bbox.left bbox.bottom),
         reference.crs⟩

/-- `geobox_intersection_conservative(geoboxes)` from the source, including
the standardisation of the empty-geobox representation (`left > right` is
canonicalised to `right := left`, then `bottom > top` to `top := bottom`). -/
def geobox_intersection_conservative (geoboxes : List GeoBox) : Except GeoError GeoBox :=
  match geoboxes with
  | [] => .error .inputError
  | reference :: rest => do
    let bb0 ← bounding_box_in_pixel_domain reference reference
    let bbs ← pixel_bboxes reference rest
    let bbox := bbox_intersection1 bb0 bbs
    let bbox := if bbox.left > bbox.right then
        { bbox with right := bbox.left } else bbox
    let bbox := if bbox.bottom > bbox.top then
        { bbox with top := bbox.bottom } else bbox
    .ok ⟨bbox.width, bbox.height,
         reference.affine.mul (Affine.translation bbox.left bbox.bottom),
         reference.crs⟩

/-- `GeoBox.__or__`: a geobox that encompasses both self and other. -/
def GeoBox.union_op (x y : GeoBox) : Except GeoError GeoBox :=
  geobox_union_conservative [x, y]

/-- `GeoBox.__and__`: a geobox that is contained in both self and other. -/
def GeoBox.inter_op (x y : GeoBox) : Except GeoError GeoBox :=
  geobox_intersection_conservative [x, y]

/-- A Python `slice(start, stop, step)` with integer or omitted fields. -/
structure PySlice where
  start : Option ℤ
  stop : Option ℤ
  step : Option ℤ
deriving DecidableEq, Repr

/-- Modelled from the spec: `roi_normalise` from
`datacube.utils.geometry.tools` (not under `src/`); per the spec's
"Cropping" paragraph, a slice's negative or open-ended bounds are
normalised against the axis size `n`: an omitted start is 0, an omitted
stop is `n`, and a negative bound counts from the end (`v + n`).  Returns
the normalised `(start, stop)` pair for one axis. -/
def norm_slice (s : PySlice) (n : ℤ) : ℤ × ℤ :=
  let lo := match s.start with
    | none => 0
    | some v => if v < 0 then v + n else v
  let hi := match s.stop with
    | none => n
    | some v => if v < 0 then v + n else v
  (lo, hi)

/-- The per-slice test `s.step is None or s.step == 1` from
`GeoBox.__getitem__`. -/
def slice_step_ok (s : PySlice) : Bool := s.step == none || s.step == some 1

/-- `GeoBox.__getitem__` from the source, for a region given as a 2-tuple
of slices (scalar and single-slice inputs are normalised to this form by
the method's first lines).  A non-unit step raises `NotImplementedError`;
otherwise the slices are normalised (`roi_normalise`), `ty, tx` are the
starts, `h, w` the `roi_shape` (`stop - start` per axis, modelled from the
spec), and the result keeps the CRS with the affine origin translated to
the crop's top-left pixel. -/
def GeoBox.getitem (g : GeoBox) (roi : PySlice × PySlice) : Except GeoError GeoBox :=
  if ¬ (slice_step_ok roi.1 && slice_step_ok roi.2) then .error .notImplemented
  else
    let yr := norm_slice roi.1 g.height
    let xr := norm_slice roi.2 g.width
    .ok ⟨xr.2 - xr.1, yr.2 - yr.1,
         g.affine.mul (Affine.translation xr.1 yr.1), g.crs⟩

/-- `scaled_down_geobox(src_geobox, scaler)` from the source:
`H, W = [X//scaler + (1 if X % scaler else 0) for X in src_geobox.shape]`
(Python floor division / floor modulo) and
`A = src_geobox.transform * Affine.scale(scaler, scaler)`.  The source's
`assert scaler > 1` is carried as a hypothesis of the claim's theorem. -/
def scaled_down_geobox (g : GeoBox) (scaler : ℤ) : GeoBox :=
  let H := g.height.fdiv scaler + (if g.height.fmod scaler = 0 then 0 else 1)
  let W := g.width.fdiv scaler + (if g.width.fmod scaler = 0 then 0 else 1)
  ⟨W, H, g.affine.mul (Affine.scale scaler scaler), g.crs⟩

/-! ## Helper lemmas -/

lemma qfloor_eq {z : ℤ} {x : ℚ} (h1 : (z : ℚ) ≤ x) (h2 : x < z + 1) : ⌊x⌋ = z := by
  rw [Int.floor_eq_iff]
  exact ⟨h1, h2⟩

lemma qceil_eq {z : ℤ} {x : ℚ} (h1 : (z : ℚ) - 1 < x) (h2 : x ≤ z) : ⌈x⌉ = z := by
  rw [Int.ceil_eq_iff]
  exact ⟨h1, h2⟩

lemma qmod_int_mul_add (k : ℤ) (off r : ℚ) (hr : r ≠ 0) :
    qmod ((k : ℚ) * r + off) r = qmod off r := by
  unfold qmod
  have h : ((k : ℚ) * r + off) / r = (k : ℚ) + off / r := by
    field_simp
  rw [h, Int.floor_int_add]
  push_cast
  ring

/-! ## Claims about `_align_pix` -/

/-- C3: the four literal grid-alignment evaluations stated in the spec:
`_align_pix(20,30,10,0) = (20.0, 1)`, `_align_pix(20,31.5,10,0) = (20.0, 2)`,
`_align_pix(20,30,-10,0) = (30.0, 1)`, `_align_pix(20,30,10,3) = (13.0, 2)`. -/
theorem align_pix_literals :
    align_pix 20 30 10 0 = (20, 1) ∧ align_pix 20 31.5 10 0 = (20, 2) ∧
    align_pix 20 30 (-10) 0 = (30, 1) ∧ align_pix 20 30 10 3 = (13, 2) := by
  refine ⟨?_, ?_, ?_, ?_⟩
  · rw [align_pix]
    norm_num
    exact qceil_eq (by norm_num) (by norm_num)
  · rw [align_pix]
    norm_num
    exact qceil_eq (by norm_num) (by norm_num)
  · rw [align_pix]
    norm_num
    exact qceil_eq (by norm_num) (by norm_num)
  · rw [align_pix]
    norm_num
    exact qceil_eq (by norm_num) (by norm_num)

/-- C2: for `res ≠ 0` and `0 ≤ off ≤ |res|`, `_align_pix` returns
`(origin, count)` with `origin mod |res|` within `1e-9` of `off mod |res|`
(in fact exactly equal over exact arithmetic), `count ≥ 1`, and the grid
`[origin, origin + count*res]` (ordered ends) covering `[left, right]` up
to a slack of `0.1*|res|`. -/
theorem align_pix_alignment_props (left right res off : ℚ) (hres : res ≠ 0)
    (h0 : 0 ≤ off) (h1 : off ≤ |res|) :
    1 ≤ (align_pix left right res off).2 ∧
    |qmod (align_pix left right res off).1 (abs res) - qmod off (abs res)| ≤ 1/1000000000 ∧
    min (align_pix left right res off).1
        ((align_pix left right res off).1 + ((align_pix left right res off).2 : ℚ) * res)
      ≤ left + 0.1 * |res| ∧
    right - 0.1 * |res| ≤
      max (align_pix left right res off).1
        ((align_pix left right res off).1 + ((align_pix left right res off).2 : ℚ) * res) := by
  unfold align_pix
  split_ifs with hneg
  · have hr : (0:ℚ) < -res := by linarith
    have habs : |res| = -res := abs_of_neg hneg
    simp only [habs]
    set m : ℤ := ⌈(right - off) / -res⌉ with hmdef
    set val : ℚ := (m : ℚ) * -res + off with hvaldef
    set cnt : ℤ := max 1 ⌈(val - left - 0.1 * -res) / -res⌉ with hcnt
    refine ⟨le_max_left _ _, ?_, ?_, ?_⟩
    · rw [qmod_int_mul_add m off (-res) (by linarith)]
      norm_num
    · have hc1 : ((⌈(val - left - 0.1 * -res) / -res⌉ : ℤ) : ℚ)
          ≥ (val - left - 0.1 * -res) / -res := Int.le_ceil _
      have hcnt_ge : ((cnt : ℤ) : ℚ) ≥ (val - left - 0.1 * -res) / -res := by
        refine le_trans hc1 ?_
        exact_mod_cast Int.cast_le.mpr (le_max_right _ _)
      have hmul : (cnt : ℚ) * -res ≥ val - left - 0.1 * -res := by
        have h2 := mul_le_mul_of_nonneg_right hcnt_ge (le_of_lt hr)
        rwa [div_mul_cancel₀ _ (ne_of_gt hr)] at h2
      refine le_trans (min_le_right _ _) ?_
      have heq : val + (cnt : ℚ) * res = val - (cnt : ℚ) * -res := by ring
      rw [heq]
      linarith
    · have hle : ((m : ℤ) : ℚ) ≥ (right - off) / -res := Int.le_ceil _
      have h2 := mul_le_mul_of_nonneg_right hle (le_of_lt hr)
      rw [div_mul_cancel₀ _ (ne_of_gt hr)] at h2
      have hv : val ≥ right := by rw [hvaldef]; linarith
      refine le_trans ?_ (le_max_left _ _)
      linarith
  · have hr : (0:ℚ) < res := lt_of_le_of_ne (not_lt.mp hneg) (Ne.symm hres)
    have habs : |res| = res := abs_of_pos hr
    simp only [habs]
    set k : ℤ := ⌊(left - off) / res⌋ with hkdef
    set val : ℚ := (k : ℚ) * res + off with hvaldef
    set cnt : ℤ := max 1 ⌈(right - val - 0.1 * res) / res⌉ with hcnt
    refine ⟨le_max_left _ _, ?_, ?_, ?_⟩
    · rw [qmod_int_mul_add k off res hres]
      norm_num
    · have hk : ((k : ℤ) : ℚ) ≤ (left - off) / res := Int.floor_le _
      have h2 := mul_le_mul_of_nonneg_right hk (le_of_lt hr)
      rw [div_mul_cancel₀ _ (ne_of_gt hr)] at h2
      have hvle : val ≤ left := by rw [hvaldef]; linarith
      refine le_trans (min_le_left _ _) ?_
      have hpos : (0:ℚ) ≤ 0.1 * res := by positivity
      linarith
    · have hc1 : ((⌈(right - val - 0.1 * res) / res⌉ : ℤ) : ℚ)
          ≥ (right - val - 0.1 * res) / res := Int.le_ceil _
      have hcnt_ge : ((cnt : ℤ) : ℚ) ≥ (right - val - 0.1 * res) / res := by
        refine le_trans hc1 ?_
        exact_mod_cast Int.cast_le.mpr (le_max_right _ _)
      have hmul : (cnt : ℚ) * res ≥ right - val - 0.1 * res := by
        have h2 := mul_le_mul_of_nonneg_right hcnt_ge (le_of_lt hr)
        rwa [div_mul_cancel₀ _ (ne_of_gt hr)] at h2
      refine le_trans ?_ (le_max_right _ _)
      linarith

/-- Witness for C2 at `(left, right, res, off) = (20, 30, 10, 0)`. -/
theorem align_pix_alignment_props_witness :
    (10:ℚ) ≠ 0 ∧ (0:ℚ) ≤ 0 ∧ (0:ℚ) ≤ |(10:ℚ)| ∧
    (1 ≤ (align_pix 20 30 10 0).2 ∧
     |qmod (align_pix 20 30 10 0).1 (abs 10) - qmod 0 (abs 10)| ≤ 1/1000000000 ∧
     min (align_pix 20 30 10 0).1
         ((align_pix 20 30 10 0).1 + ((align_pix 20 30 10 0).2 : ℚ) * 10)
       ≤ 20 + 0.1 * |(10:ℚ)| ∧
     30 - 0.1 * |(10:ℚ)| ≤
       max (align_pix 20 30 10 0).1
         ((align_pix 20 30 10 0).1 + ((align_pix 20 30 10 0).2 : ℚ) * 10)) :=
  ⟨by norm_num, le_refl 0, by norm_num,
   align_pix_alignment_props 20 30 10 0 (by norm_num) (le_refl 0) (by norm_num)⟩

/-! ## Claim about `bounding_box_in_pixel_domain` -/

lemma Affine.inv_mul_cancel (A : Affine) (h : A.det ≠ 0) :
    A.inv.mul A = ⟨1, 0, 0, 0, 1, 0⟩ := by
  unfold Affine.inv Affine.mul
  congr 1 <;> field_simp <;> (try simp only [Affine.det]) <;> ring

lemma whole_pixel_identity : is_whole_pixel_translation ⟨1, 0, 0, 0, 1, 0⟩ = true := by
  norm_num [is_whole_pixel_translation, isclose, is_almost_int]

lemma bounding_box_in_pixel_domain_self (g : GeoBox) (h : g.affine.det ≠ 0) :
    bounding_box_in_pixel_domain g g = .ok ⟨0, 0, g.width, g.height⟩ := by
  unfold bounding_box_in_pixel_domain
  rw [if_neg (by simp), if_neg h]
  simp only [Affine.inv_mul_cancel g.affine h]
  rw [if_pos whole_pixel_identity]
  norm_num [pythonRound]

/-- C1: for GeoBoxes with equal CRS (and an invertible reference affine, as
the library requires to form `~reference.affine`),
`bounding_box_in_pixel_domain` succeeds exactly when the relative transform
`rel = ~reference.affine * geobox.affine` is a pure whole-pixel translation
(scale terms close to 1, shear terms close to 0, translation terms within
`1e-8` of an integer); on success it returns
`(tx, ty, tx + width, ty + height)` with `tx = round(rel.c)`,
`ty = round(rel.f)`, and any other relative transform yields the
incompatible-grids failure. -/
theorem bounding_box_in_pixel_domain_spec (g ref : GeoBox)
    (hcrs : ref.crs = g.crs) (hdet : ref.affine.det ≠ 0) :
    ((∃ bb, bounding_box_in_pixel_domain g ref = .ok bb) ↔
      is_whole_pixel_translation (ref.affine.inv.mul g.affine) = true) ∧
    (is_whole_pixel_translation (ref.affine.inv.mul g.affine) = true →
      bounding_box_in_pixel_domain g ref = .ok
        ⟨pythonRound (ref.affine.inv.mul g.affine).c,
         pythonRound (ref.affine.inv.mul g.affine).f,
         pythonRound (ref.affine.inv.mul g.affine).c + g.width,
         pythonRound (ref.affine.inv.mul g.affine).f + g.height⟩) ∧
    (is_whole_pixel_translation (ref.affine.inv.mul g.affine) = false →
      bounding_box_in_pixel_domain g ref = .error .incompatibleGrid) := by
  have hne : ¬ (ref.crs ≠ g.crs) := by simp [hcrs]
  unfold bounding_box_in_pixel_domain
  rw [if_neg hne, if_neg hdet]
  by_cases hc : is_whole_pixel_translation (ref.affine.inv.mul g.affine) = true
  · simp [hc]
  · have hc' : is_whole_pixel_translation (ref.affine.inv.mul g.affine) = false := by
      simpa using hc
    simp [hc']

/-- Fixture for the C1 witness: a 4×3 grid translated by whole pixels
(5, 7) relative to the reference frame. -/
def gWit : GeoBox := ⟨4, 3, ⟨1, 0, 5, 0, 1, 7⟩, 0⟩

/-- Fixture for the C1 witness: the reference grid (identity affine). -/
def gRefWit : GeoBox := ⟨2, 2, ⟨1, 0, 0, 0, 1, 0⟩, 0⟩

/-- Witness for C1 at `gWit`, `gRefWit`. -/
theorem bounding_box_in_pixel_domain_spec_witness :
    gRefWit.crs = gWit.crs ∧ gRefWit.affine.det ≠ 0 ∧
    (((∃ bb, bounding_box_in_pixel_domain gWit gRefWit = .ok bb) ↔
       is_whole_pixel_translation (gRefWit.affine.inv.mul gWit.affine) = true) ∧
     (is_whole_pixel_translation (gRefWit.affine.inv.mul gWit.affine) = true →
       bounding_box_in_pixel_domain gWit gRefWit = .ok
         ⟨pythonRound (gRefWit.affine.inv.mul gWit.affine).c,
          pythonRound (gRefWit.affine.inv.mul gWit.affine).f,
          pythonRound (gRefWit.affine.inv.mul gWit.affine).c + gWit.width,
          pythonRound (gRefWit.affine.inv.mul gWit.affine).f + gWit.height⟩) ∧
     (is_whole_pixel_translation (gRefWit.affine.inv.mul gWit.affine) = false →
       bounding_box_in_pixel_domain gWit gRefWit = .error .incompatibleGrid)) :=
  ⟨rfl, by norm_num [gRefWit, Affine.det],
   bounding_box_in_pixel_domain_spec gWit gRefWit rfl (by norm_num [gRefWit, Affine.det])⟩

/-! ## Claims about the dateline smoothness test -/

/-- Counterexample fixture: a forward transform to geographic coordinates
that unwraps longitudes beyond 180° and carries a small error of `1e-6`
in longitude. -/
def dlT : ℚ × ℚ → ℚ × ℚ :=
  fun p => ((if p.1 > 180 then p.1 - 360 else p.1) + 1/1000000, p.2)

/-- Counterexample fixture: the matching inverse transform, wrapping
negative longitudes into `[0, 360)`. -/
def dlR : ℚ × ℚ → ℚ × ℚ :=
  fun p => (if p.1 < 0 then p.1 + 360 else p.1, p.2)

/-- C4 counterexample: at `mid_lat = 0`, `eps = 1e-9`, with the fixture
transforms (round-trip error `1e-6`, whose squared distance `1e-12` lies
between the spec's claimed threshold `2*eps² = 2e-18` and the code's
threshold `2*eps = 2e-9`), the code's test returns true while the test as
the spec words it (round-trips within squared distance `2*eps²`) returns
false — so success is not characterised by the `2*eps²` bound. -/
theorem is_smooth_across_dateline_spec_counterexample :
    is_smooth_across_dateline 0 dlT dlR (1/1000000000) = true ∧
    is_smooth_across_dateline_specWorded 0 dlT dlR (1/1000000000) = false := by
  constructor
  · norm_num [is_smooth_across_dateline, dist2, dlT, dlR]
  · norm_num [is_smooth_across_dateline_specWorded, dist2, dlT, dlR]

/-- C4 (amended): when the two inverse-transformed probe points are within
squared source-space distance 1 of each other, the dateline test returns
true exactly when each forward round-trip lands within squared distance
`2*eps` (not `2*eps²`) of its expected point `(±(180-eps), mid_lat)`. -/
theorem is_smooth_across_dateline_roundtrip_iff (mid_lat eps : ℚ)
    (transform rtransform : ℚ × ℚ → ℚ × ℚ)
    (hsep : dist2 ((rtransform (-180 + eps, mid_lat)).1 - (rtransform (180 - eps, mid_lat)).1)
                  ((rtransform (-180 + eps, mid_lat)).2 - (rtransform (180 - eps, mid_lat)).2)
              ≤ 1) :
    is_smooth_across_dateline mid_lat transform rtransform eps = true ↔
      (dist2 ((transform (rtransform (180 - eps, mid_lat))).1 - 180 + eps)
             ((transform (rtransform (180 - eps, mid_lat))).2 - mid_lat) ≤ 2 * eps ∧
       dist2 ((transform (rtransform (-180 + eps, mid_lat))).1 + 180 - eps)
             ((transform (rtransform (-180 + eps, mid_lat))).2 - mid_lat) ≤ 2 * eps) := by
  unfold is_smooth_across_dateline
  rw [if_neg (not_lt.mpr hsep)]
  dsimp only
  split_ifs with h
  · simp only [Bool.false_eq_true, false_iff]
    rw [not_and_or]
    rcases h with h | h
    · exact Or.inl (not_le.mpr h)
    · exact Or.inr (not_le.mpr h)
  · push_neg at h
    simp only [true_iff]
    exact h

/-- Witness for the amended C4 at the counterexample fixture. -/
theorem is_smooth_across_dateline_roundtrip_iff_witness :
    (dist2 ((dlR (-180 + 1/1000000000, 0)).1 - (dlR (180 - 1/1000000000, 0)).1)
           ((dlR (-180 + 1/1000000000, 0)).2 - (dlR (180 - 1/1000000000, 0)).2) ≤ 1) ∧
    (is_smooth_across_dateline 0 dlT dlR (1/1000000000) = true ↔
      (dist2 ((dlT (dlR (180 - 1/1000000000, 0))).1 - 180 + 1/1000000000)
             ((dlT (dlR (180 - 1/1000000000, 0))).2 - 0) ≤ 2 * (1/1000000000) ∧
       dist2 ((dlT (dlR (-180 + 1/1000000000, 0))).1 + 180 - 1/1000000000)
             ((dlT (dlR (-180 + 1/1000000000, 0))).2 - 0) ≤ 2 * (1/1000000000))) :=
  ⟨by norm_num [dlR, dist2],
   is_smooth_across_dateline_roundtrip_iff 0 (1/1000000000) dlT dlR (by norm_num [dlR, dist2])⟩

/-! ## Claims about GeoBox union / intersection / crop / scaling -/

/-- C6: `geobox_union_conservative` and `geobox_intersection_conservative`
fail with the spec's `InputError` ("No geoboxes supplied") on an empty
collection. -/
theorem empty_geobox_collection_input_error :
    geobox_union_conservative [] = .error .inputError ∧
    geobox_intersection_conservative [] = .error .inputError := ⟨rfl, rfl⟩

/-- C8: union and intersection of a GeoBox with itself (for a GeoBox with
invertible affine and non-negative dimensions) return a GeoBox structurally
equal — in fact identical — to it: `g | g == g` and `g & g == g`. -/
theorem geobox_self_union_intersection (g : GeoBox) (hdet : g.affine.det ≠ 0)
    (hw : 0 ≤ g.width) (hh : 0 ≤ g.height) :
    (∃ u, GeoBox.union_op g g = .ok u ∧ geoboxEq u g = true) ∧
    (∃ v, GeoBox.inter_op g g = .ok v ∧ geoboxEq v g = true) := by
  have hb := bounding_box_in_pixel_domain_self g hdet
  constructor
  · refine ⟨g, ?_, by simp [geoboxEq]⟩
    simp only [GeoBox.union_op, geobox_union_conservative, pixel_bboxes, hb, bind, Except.bind,
      bbox_union1, List.foldl, bbox_union2, min_self, max_self]
    simp only [BoundingBox.width, BoundingBox.height, sub_zero, Int.cast_zero]
    obtain ⟨w, h, A, crs⟩ := g
    simp [Affine.mul, Affine.translation]
  · refine ⟨g, ?_, by simp [geoboxEq]⟩
    simp only [GeoBox.inter_op, geobox_intersection_conservative, pixel_bboxes, hb, bind,
      Except.bind, bbox_intersection1, List.foldl, bbox_intersection2, min_self, max_self]
    rw [if_neg (show ¬ ((0:ℤ) > g.width) by omega)]
    rw [if_neg (show ¬ ((0:ℤ) > g.height) by omega)]
    simp only [BoundingBox.width, BoundingBox.height, sub_zero, Int.cast_zero]
    obtain ⟨w, h, A, crs⟩ := g
    simp [Affine.mul, Affine.translation]

/-- Witness for C8 at `gRefWit`. -/
theorem geobox_self_union_intersection_witness :
    gRefWit.affine.det ≠ 0 ∧ 0 ≤ gRefWit.width ∧ 0 ≤ gRefWit.height ∧
    ((∃ u, GeoBox.union_op gRefWit gRefWit = .ok u ∧ geoboxEq u gRefWit = true) ∧
     (∃ v, GeoBox.inter_op gRefWit gRefWit = .ok v ∧ geoboxEq v gRefWit = true)) :=
  ⟨by norm_num [gRefWit, Affine.det], by norm_num [gRefWit], by norm_num [gRefWit],
   geobox_self_union_intersection gRefWit (by norm_num [gRefWit, Affine.det])
     (by norm_num [gRefWit]) (by norm_num [gRefWit])⟩

/-- C5: for two GeoBoxes (with invertible first affine, as needed to form
the reference inverse), both the union operator `|` and the intersection
operator `&` fail with `CRSMismatchError` when the CRSs differ, and with
`IncompatibleGridError` when the CRSs agree but the relative transform is a
pure translation by a non-whole-pixel offset. -/
theorem geobox_ops_error_modes (g1 g2 : GeoBox) (hdet : g1.affine.det ≠ 0) :
    (g1.crs ≠ g2.crs →
      GeoBox.union_op g1 g2 = .error .crsMismatch ∧
      GeoBox.inter_op g1 g2 = .error .crsMismatch) ∧
    (g1.crs = g2.crs →
      isclose (g1.affine.inv.mul g2.affine).a 1 = true →
      isclose (g1.affine.inv.mul g2.affine).b 0 = true →
      isclose (g1.affine.inv.mul g2.affine).d 0 = true →
      isclose (g1.affine.inv.mul g2.affine).e 1 = true →
      (is_almost_int (g1.affine.inv.mul g2.affine).c (1/100000000) = false ∨
       is_almost_int (g1.affine.inv.mul g2.affine).f (1/100000000) = false) →
      GeoBox.union_op g1 g2 = .error .incompatibleGrid ∧
      GeoBox.inter_op g1 g2 = .error .incompatibleGrid) := by
  have hb := bounding_box_in_pixel_domain_self g1 hdet
  constructor
  · intro hcrs
    have h2 : bounding_box_in_pixel_domain g2 g1 = .error .crsMismatch := by
      unfold bounding_box_in_pixel_domain
      rw [if_pos hcrs]
    refine ⟨?_, ?_⟩
    · simp only [GeoBox.union_op, geobox_union_conservative, pixel_bboxes, hb, h2, bind,
        Except.bind]
    · simp only [GeoBox.inter_op, geobox_intersection_conservative, pixel_bboxes, hb, h2, bind,
        Except.bind]
  · intro hcrs h1 h2 h3 h4 h5
    have hwp : is_whole_pixel_translation (g1.affine.inv.mul g2.affine) = false := by
      unfold is_whole_pixel_translation
      rcases h5 with h5 | h5 <;>
        simp only [h5, Bool.and_false, Bool.false_and]
    have he : bounding_box_in_pixel_domain g2 g1 = .error .incompatibleGrid := by
      simp [bounding_box_in_pixel_domain, hcrs, hdet, hwp]
    refine ⟨?_, ?_⟩
    · simp only [GeoBox.union_op, geobox_union_conservative, pixel_bboxes, hb, he, bind,
        Except.bind]
    · simp only [GeoBox.inter_op, geobox_intersection_conservative, pixel_bboxes, hb, he, bind,
        Except.bind]

/-- Fixture for the C5 witness: same grid as `gWit` but in a different CRS
(identity 1 instead of 0). -/
def gCrsWit : GeoBox := ⟨4, 3, ⟨1, 0, 5, 0, 1, 7⟩, 1⟩

/-- Fixture for the C5 witness: same CRS as `gRefWit` but offset by half a
pixel in x (`c = 1/2`, a fractional-pixel translation). -/
def gFracWit : GeoBox := ⟨4, 3, ⟨1, 0, 1/2, 0, 1, 7⟩, 0⟩

/-- Witness for C5, exercising both error branches: `gRefWit` against
`gCrsWit` (different CRS, both operators give the CRS-mismatch error) and
`gRefWit` against `gFracWit` (same CRS, half-pixel offset, both operators
give the incompatible-grids error). -/
theorem geobox_ops_error_modes_witness :
    gRefWit.affine.det ≠ 0 ∧
    gRefWit.crs ≠ gCrsWit.crs ∧
    (GeoBox.union_op gRefWit gCrsWit = .error .crsMismatch ∧
     GeoBox.inter_op gRefWit gCrsWit = .error .crsMismatch) ∧
    gRefWit.crs = gFracWit.crs ∧
    is_almost_int (gRefWit.affine.inv.mul gFracWit.affine).c (1/100000000) = false ∧
    (GeoBox.union_op gRefWit gFracWit = .error .incompatibleGrid ∧
     GeoBox.inter_op gRefWit gFracWit = .error .incompatibleGrid) := by
  have hdet : gRefWit.affine.det ≠ 0 := by norm_num [gRefWit, Affine.det]
  have hne : gRefWit.crs ≠ gCrsWit.crs := by norm_num [gRefWit, gCrsWit]
  have hfrac : is_almost_int (gRefWit.affine.inv.mul gFracWit.affine).c (1/100000000)
      = false := by
    norm_num [gRefWit, gFracWit, Affine.inv, Affine.mul, Affine.det, is_almost_int, round_eq]
    rw [abs_of_pos] <;> norm_num
  refine ⟨hdet, hne, (geobox_ops_error_modes gRefWit gCrsWit hdet).1 hne, rfl, hfrac,
    (geobox_ops_error_modes gRefWit gFracWit hdet).2 rfl ?_ ?_ ?_ ?_ (Or.inl hfrac)⟩
  all_goals norm_num [gRefWit, gFracWit, Affine.inv, Affine.mul, Affine.det, isclose]

/-- C9: whenever conservative intersection succeeds, naming the
coordinate-wise intersection `bb` of the operands' pixel-domain bounding
boxes: the returned width is `bb.width` unless `bb` is empty on the x axis
(`left > right`), in which case the box is canonicalised to `left == right`
and the width is 0 — never negative — and symmetrically for the height;
hence the result always has non-negative width and height and is empty
exactly when its width or height is zero. -/
theorem geobox_intersection_canonical (reference : GeoBox) (rest : List GeoBox)
    (bb0 : BoundingBox) (bbs : List BoundingBox) (gOut : GeoBox)
    (h0 : bounding_box_in_pixel_domain reference reference = .ok bb0)
    (hbs : pixel_bboxes reference rest = .ok bbs)
    (hok : geobox_intersection_conservative (reference :: rest) = .ok gOut) :
    (gOut.width = if (bbox_intersection1 bb0 bbs).left > (bbox_intersection1 bb0 bbs).right
        then 0 else (bbox_intersection1 bb0 bbs).width) ∧
    (gOut.height = if (bbox_intersection1 bb0 bbs).bottom > (bbox_intersection1 bb0 bbs).top
        then 0 else (bbox_intersection1 bb0 bbs).height) ∧
    0 ≤ gOut.width ∧ 0 ≤ gOut.height ∧
    (gOut.is_empty = true ↔ gOut.width = 0 ∨ gOut.height = 0) := by
  simp only [geobox_intersection_conservative] at hok
  rw [h0, hbs] at hok
  simp only [bind, Except.bind, Except.ok.injEq] at hok
  subst hok
  simp only [GeoBox.is_empty, Bool.or_eq_true, beq_iff_eq]
  split_ifs with hlr hbt hbt <;>
    (dsimp only [BoundingBox.width, BoundingBox.height] at *) <;>
    exact ⟨by omega, by omega, by omega, by omega, trivial⟩

/-- Fixture for the C9 witness: same grid as `gRefWit`, translated by 10
whole pixels in x — disjoint from `gRefWit`, so the pixel-domain
intersection is empty on the x axis. -/
def gDisjWit : GeoBox := ⟨2, 2, ⟨1, 0, 10, 0, 1, 0⟩, 0⟩

/-- Witness for C9 on the disjoint pair `[gRefWit, gDisjWit]`: the folded
pixel intersection is `(10, 0, 2, 2)` with `left > right`, and the result
is canonicalised to width 0 (and height 2). -/
theorem geobox_intersection_canonical_witness :
    bounding_box_in_pixel_domain gRefWit gRefWit = .ok ⟨0, 0, 2, 2⟩ ∧
    pixel_bboxes gRefWit [gDisjWit] = .ok [⟨10, 0, 12, 2⟩] ∧
    geobox_intersection_conservative [gRefWit, gDisjWit]
      = .ok ⟨0, 2, ⟨1, 0, 10, 0, 1, 0⟩, 0⟩ ∧
    (((⟨0, 2, ⟨1, 0, 10, 0, 1, 0⟩, 0⟩ : GeoBox).width
        = if (bbox_intersection1 ⟨0, 0, 2, 2⟩ [⟨10, 0, 12, 2⟩]).left
              > (bbox_intersection1 ⟨0, 0, 2, 2⟩ [⟨10, 0, 12, 2⟩]).right
          then 0 else (bbox_intersection1 ⟨0, 0, 2, 2⟩ [⟨10, 0, 12, 2⟩]).width) ∧
     ((⟨0, 2, ⟨1, 0, 10, 0, 1, 0⟩, 0⟩ : GeoBox).height
        = if (bbox_intersection1 ⟨0, 0, 2, 2⟩ [⟨10, 0, 12, 2⟩]).bottom
              > (bbox_intersection1 ⟨0, 0, 2, 2⟩ [⟨10, 0, 12, 2⟩]).top
          then 0 else (bbox_intersection1 ⟨0, 0, 2, 2⟩ [⟨10, 0, 12, 2⟩]).height) ∧
     0 ≤ (⟨0, 2, ⟨1, 0, 10, 0, 1, 0⟩, 0⟩ : GeoBox).width ∧
     0 ≤ (⟨0, 2, ⟨1, 0, 10, 0, 1, 0⟩, 0⟩ : GeoBox).height ∧
     ((⟨0, 2, ⟨1, 0, 10, 0, 1, 0⟩, 0⟩ : GeoBox).is_empty = true ↔
        (⟨0, 2, ⟨1, 0, 10, 0, 1, 0⟩, 0⟩ : GeoBox).width = 0 ∨
        (⟨0, 2, ⟨1, 0, 10, 0, 1, 0⟩, 0⟩ : GeoBox).height = 0)) := by
  have p1 : bounding_box_in_pixel_domain gRefWit gRefWit = .ok ⟨0, 0, 2, 2⟩ := by
    rw [bounding_box_in_pixel_domain_self gRefWit (by norm_num [gRefWit, Affine.det])]
    norm_num [gRefWit]
  have pb : bounding_box_in_pixel_domain gDisjWit gRefWit = .ok ⟨10, 0, 12, 2⟩ := by
    norm_num [bounding_box_in_pixel_domain, gRefWit, gDisjWit, Affine.inv, Affine.mul,
      Affine.det, is_whole_pixel_translation, isclose, is_almost_int, pythonRound, round_eq]
  have p2 : pixel_bboxes gRefWit [gDisjWit] = .ok [⟨10, 0, 12, 2⟩] := by
    simp only [pixel_bboxes, pb, bind, Except.bind]
  have p3 : geobox_intersection_conservative [gRefWit, gDisjWit]
      = .ok ⟨0, 2, ⟨1, 0, 10, 0, 1, 0⟩, 0⟩ := by
    simp only [geobox_intersection_conservative, p1, p2, bind, Except.bind,
      bbox_intersection1, List.foldl, bbox_intersection2]
    norm_num [gRefWit, BoundingBox.width, BoundingBox.height, Affine.mul, Affine.translation]
  exact ⟨p1, p2, p3, geobox_intersection_canonical gRefWit [gDisjWit] _ _ _ p1 p2 p3⟩

/-- C7: cropping a GeoBox with the full-range region
`g[0:height, 0:width]` yields a GeoBox equal (in the sense of
`GeoBox.__eq__`) to `g`. -/
theorem geobox_full_crop_roundtrip (g : GeoBox) (hw : 0 ≤ g.width) (hh : 0 ≤ g.height) :
    ∃ u, g.getitem (⟨some 0, some g.height, none⟩, ⟨some 0, some g.width, none⟩) = .ok u ∧
      geoboxEq u g = true := by
  refine ⟨g, ?_, by simp [geoboxEq]⟩
  obtain ⟨w, h, A, crs⟩ := g
  simp only at hw hh
  simp only [GeoBox.getitem, slice_step_ok, norm_slice]
  rw [if_neg (by simp)]
  simp [Affine.mul, Affine.translation, not_lt.mpr hw, not_lt.mpr hh]

/-- Witness for C7 at `gWit`. -/
theorem geobox_full_crop_roundtrip_witness :
    0 ≤ gWit.width ∧ 0 ≤ gWit.height ∧
    (∃ u, gWit.getitem (⟨some 0, some gWit.height, none⟩, ⟨some 0, some gWit.width, none⟩)
        = .ok u ∧ geoboxEq u gWit = true) :=
  ⟨by norm_num [gWit], by norm_num [gWit],
   geobox_full_crop_roundtrip gWit (by norm_num [gWit]) (by norm_num [gWit])⟩

lemma fdiv_ceil_eq (X s : ℤ) (hs : 0 < s) :
    X.fdiv s + (if X.fmod s = 0 then 0 else 1) = ⌈(X : ℚ) / (s : ℚ)⌉ := by
  have hX : s * X.fdiv s + X.fmod s = X := Int.fdiv_add_fmod X s
  have hr0 : 0 ≤ X.fmod s := Int.fmod_nonneg' X hs
  have hrs : X.fmod s < s := Int.fmod_lt_of_pos X hs
  have hsq : (0:ℚ) < (s:ℚ) := by exact_mod_cast hs
  have hdiv : (X:ℚ) / (s:ℚ) = (X.fmod s : ℚ) / (s:ℚ) + (X.fdiv s : ℚ) := by
    have hc : (X:ℚ) = (s:ℚ) * (X.fdiv s : ℚ) + (X.fmod s : ℚ) := by
      exact_mod_cast hX.symm
    rw [hc]
    field_simp
    ring
  rw [hdiv]
  rw [Int.ceil_add_int]
  by_cases h : X.fmod s = 0
  · simp [h]
  · have hpos : (0:ℚ) < (X.fmod s : ℚ) / (s:ℚ) := by
      apply div_pos _ hsq
      exact_mod_cast lt_of_le_of_ne hr0 (Ne.symm h)
    have hle : (X.fmod s : ℚ) / (s:ℚ) ≤ 1 := by
      rw [div_le_one hsq]
      exact_mod_cast le_of_lt hrs
    rw [if_neg h, show (⌈(X.fmod s : ℚ) / (s:ℚ)⌉ : ℤ) = 1 from
      qceil_eq (by push_cast; linarith) (by push_cast; linarith)]
    omega

/-- C10: for an integer `scaler > 1`, `scaled_down_geobox` keeps the CRS,
has shape `(⌈height/scaler⌉, ⌈width/scaler⌉)` (padding when the shape is
not a multiple of the scaler), and its affine is exactly the source affine
composed with `Affine.scale(scaler, scaler)` — no extra translation. -/
theorem scaled_down_geobox_spec (g : GeoBox) (scaler : ℤ) (hs : 1 < scaler) :
    (scaled_down_geobox g scaler).crs = g.crs ∧
    (scaled_down_geobox g scaler).affine = g.affine.mul (Affine.scale scaler scaler) ∧
    (scaled_down_geobox g scaler).height = ⌈(g.height : ℚ) / (scaler : ℚ)⌉ ∧
    (scaled_down_geobox g scaler).width = ⌈(g.width : ℚ) / (scaler : ℚ)⌉ := by
  refine ⟨rfl, rfl, ?_, ?_⟩
  · exact fdiv_ceil_eq g.height scaler (by omega)
  · exact fdiv_ceil_eq g.width scaler (by omega)

/-- Witness for C10 at `gWit` with `scaler = 2` (shape 3×4 ↦ 2×2). -/
theorem scaled_down_geobox_spec_witness :
    (1:ℤ) < 2 ∧
    ((scaled_down_geobox gWit 2).crs = gWit.crs ∧
     (scaled_down_geobox gWit 2).affine = gWit.affine.mul (Affine.scale 2 2) ∧
     (scaled_down_geobox gWit 2).height = ⌈(gWit.height : ℚ) / (2 : ℚ)⌉ ∧
     (scaled_down_geobox gWit 2).width = ⌈(gWit.width : ℚ) / (2 : ℚ)⌉) :=
  ⟨by norm_num, scaled_down_geobox_spec gWit 2 (by norm_num)⟩
